import Mathlib

/-!
Verification development for gorm_study.

Shallow embedding of the database tasks of the repository.

* `task2.go`: `Transfer` and the `Task2` demonstration (accounts, audit records,
  the transaction wrapper with rollback, row locks taken by `SELECT ... FOR UPDATE`).
* `task1.go`: `RunTask1` (insert, query, update, delete on the students table).
* `task5.go`: the `Comment.AfterDelete` hook.

A table is the list of its rows in storage order.  The ORM calls are the
primitives of the embedding, each with the behaviour the ORM documents for it;
a call that can fail takes the failure it is to report (if any) as an argument.
-/

namespace GormStudy

/-! ## Errors -/

/-- Go error values: `errors.New(text)` and `fmt.Errorf("ctx: %w", cause)`. -/
inductive Err where
  | msg (text : String)
  | wrap (ctx : String) (cause : Err)
  deriving DecidableEq, Repr

/-- The ORM error reported by `First` when no row matches. -/
def ErrRecordNotFound : Err := Err.msg "record not found"

/-! ## task2.go: data model -/

/-- Exact decimal amounts.  `Transfer` only compares, adds and subtracts them, all of
which are exact on decimals, so an amount is represented by the integer number of
units it holds; `decimal.NewFromInt n` is `n`. -/
abbrev Decimal := Int

/-- The constructor `decimal.NewFromInt`. -/
def NewFromInt (n : Int) : Decimal := n

/-- Row of the `accounts` table. -/
structure Account where
  ID : Nat
  Balance : Decimal
  deriving DecidableEq, Repr

/-- Row of the `transactions` table. -/
structure Transaction where
  ID : Nat
  FromAccountID : Nat
  ToAccountID : Nat
  Amount : Decimal
  deriving DecidableEq, Repr

/-- The committed contents of the two tables. -/
structure DB where
  accounts : List Account
  transactions : List Transaction
  deriving DecidableEq, Repr

/-- An open transaction: its working copy of the tables and the account rows it has
locked so far, in the order the locks were taken. -/
structure Tx where
  db : DB
  locked : List Nat
  deriving DecidableEq, Repr

/-- The failure, if any, that each database call of `Transfer` is to report. -/
structure Faults where
  begin : Option Err
  firstFrom : Option Err
  firstTo : Option Err
  saveFrom : Option Err
  saveTo : Option Err
  create : Option Err
  commit : Option Err
  deriving DecidableEq, Repr

/-- Every database call succeeds. -/
def noFaults : Faults := ⟨none, none, none, none, none, none, none⟩

/-- Primary-key discipline of the `accounts` table: keys are unique, and no row has
key `0`, which the ORM reads as "no key" (keys are assigned from `1`). -/
def DB.WF (db : DB) : Prop :=
  (db.accounts.map Account.ID).Nodup ∧ 0 ∉ db.accounts.map Account.ID

instance (db : DB) : Decidable db.WF := by
  unfold DB.WF; infer_instance

/-- The `accounts` table has a row with key `id`. -/
def DB.hasAccount (db : DB) (id : Nat) : Prop := id ∈ db.accounts.map Account.ID

instance (db : DB) (id : Nat) : Decidable (db.hasAccount id) := by
  unfold DB.hasAccount; infer_instance

/-- The key an auto-increment column assigns to the next inserted row, on a table from
which no row was deleted since its counter started: one more than the largest key in
the table (`1` on an empty table). -/
def nextID (ids : List Nat) : Nat := ids.foldl max 0 + 1

/-- Balance of the account with key `id`, if there is one. -/
def DB.balance (db : DB) (id : Nat) : Option Decimal :=
  (db.accounts.find? (fun a => a.ID == id)).map Account.Balance

/-- Sum of all balances. -/
def DB.total (db : DB) : Decimal := (db.accounts.map Account.Balance).sum

/-! ## task2.go: the ORM calls used by `Transfer` -/

/-- The transaction with its working copy of `accounts` replaced. -/
def Tx.setAccounts (tx : Tx) (rows : List Account) : Tx :=
  ⟨⟨rows, tx.db.transactions⟩, tx.locked⟩

/-- The transaction with its working copy of `transactions` replaced. -/
def Tx.setTransactions (tx : Tx) (rows : List Transaction) : Tx :=
  ⟨⟨tx.db.accounts, rows⟩, tx.locked⟩

/-- The call `tx.Clauses(clause.Locking{Strength: "UPDATE"}).First(&account, id)`:
`SELECT * FROM accounts WHERE id = ? ORDER BY id LIMIT 1 FOR UPDATE`.
The row found is locked; with no row the result is `ErrRecordNotFound`. -/
def FirstForUpdate (fault : Option Err) (id : Nat) (tx : Tx) : Tx × Except Err Account :=
  match fault with
  | some e => (tx, Except.error e)
  | none =>
    match tx.db.accounts.find? (fun a => a.ID == id) with
    | none => (tx, Except.error ErrRecordNotFound)
    | some a => (⟨tx.db, tx.locked ++ [a.ID]⟩, Except.ok a)

/-- The call `tx.Save(&account)`.  With a zero primary key `Save` is `Create` (the row
is inserted under a fresh key); otherwise it is
`UPDATE accounts SET balance = ? WHERE id = ?`, and when that touches no row the record
is inserted. -/
def Save (fault : Option Err) (a : Account) (tx : Tx) : Tx × Option Err :=
  match fault with
  | some e => (tx, some e)
  | none =>
    if a.ID = 0 then
      (tx.setAccounts
        (tx.db.accounts ++ [{ a with ID := nextID (tx.db.accounts.map Account.ID) }]), none)
    else if tx.db.accounts.any (fun r => r.ID == a.ID) then
      (tx.setAccounts (tx.db.accounts.map (fun r => if r.ID = a.ID then a else r)), none)
    else
      (tx.setAccounts (tx.db.accounts ++ [a]), none)

/-- The call `tx.Create(&transaction)` for a record whose key is zero: the row is
appended under the next auto-increment key. -/
def Create (fault : Option Err) (t : Transaction) (tx : Tx) : Tx × Option Err :=
  match fault with
  | some e => (tx, some e)
  | none =>
    (tx.setTransactions
      (tx.db.transactions ++
        [{ t with ID := nextID (tx.db.transactions.map Transaction.ID) }]), none)

/-- The call `db.Transaction(fc)`: begin, run `fc` on the transaction, commit when `fc`
returns `nil`, roll back (and return the error of `fc`) otherwise.  A failed begin or
commit leaves the committed tables as they were and is returned. -/
def DB.Transaction (faultBegin faultCommit : Option Err) (db : DB)
    (fc : Tx → Tx × Option Err) : DB × Option Err :=
  match faultBegin with
  | some e => (db, some e)
  | none =>
    match fc ⟨db, []⟩ with
    | (_, some e) => (db, some e)
    | (tx, none) =>
      match faultCommit with
      | some e => (db, some e)
      | none => (tx.db, none)

/-! ## task2.go: `Transfer` -/

/-- The function literal passed to `db.Transaction` in `Transfer`. -/
def transferBody (f : Faults) (fromID toID : Nat) (amount : Decimal) (tx : Tx) :
    Tx × Option Err :=
  if amount ≤ 0 then (tx, some (Err.msg "转账金额必须为正数"))
  else
    match FirstForUpdate f.firstFrom fromID tx with
    | (tx, Except.error e) => (tx, some (Err.wrap "找不到转出账户" e))
    | (tx, Except.ok fromAccount) =>
      match FirstForUpdate f.firstTo toID tx with
      | (tx, Except.error e) => (tx, some (Err.wrap "找不到转入账户" e))
      | (tx, Except.ok toAccount) =>
        if fromAccount.Balance < amount then (tx, some (Err.msg "余额不足"))
        else
          let fromAccount : Account :=
            { fromAccount with Balance := fromAccount.Balance - amount }
          let toAccount : Account :=
            { toAccount with Balance := toAccount.Balance + amount }
          match Save f.saveFrom fromAccount tx with
          | (tx, some e) => (tx, some (Err.wrap "更新转出账户失败" e))
          | (tx, none) =>
            match Save f.saveTo toAccount tx with
            | (tx, some e) => (tx, some (Err.wrap "更新转入账户失败" e))
            | (tx, none) =>
              match Create f.create ⟨0, fromID, toID, amount⟩ tx with
              | (tx, some e) => (tx, some (Err.wrap "创建交易记录失败" e))
              | (tx, none) => (tx, none)

/-- The function `Transfer(db, fromID, toID, amount)`: the committed tables after the
call and the error returned (`none` is `nil`). -/
def Transfer (f : Faults) (db : DB) (fromID toID : Nat) (amount : Decimal) :
    DB × Option Err :=
  db.Transaction f.begin f.commit (transferBody f fromID toID amount)

/-- The account rows locked by `Transfer`, in the order the locks are taken. -/
def lockOrder (f : Faults) (db : DB) (fromID toID : Nat) (amount : Decimal) : List Nat :=
  match f.begin with
  | some _ => []
  | none => (transferBody f fromID toID amount ⟨db, []⟩).1.locked

/-- The accounts table with every row of key `fromID` set to the balance `b - amount`
and every other row as it was. -/
def debited (rows : List Account) (fromID : Nat) (b amount : Decimal) : List Account :=
  rows.map (fun r => if r.ID = fromID then ⟨r.ID, b - amount⟩ else r)

/-- The accounts table after the two writes of a transfer, the debit of `fromID` to
`b - amount` and then the credit of `toID` to `bt + amount`: the later write wins on a
row that has both keys. -/
def settled (rows : List Account) (fromID toID : Nat) (b bt amount : Decimal) :
    List Account :=
  rows.map (fun r =>
    if r.ID = toID then ⟨r.ID, bt + amount⟩
    else if r.ID = fromID then ⟨r.ID, b - amount⟩
    else r)

/-! ## task2.go: the `Task2` demonstration -/

/-- The method `Error()` of an error value. -/
def Err.Error : Err → String
  | Err.msg text => text
  | Err.wrap ctx cause => ctx ++ ": " ++ cause.Error

/-- The call `db.First(&dest, id)` with its error ignored, as `Task2` uses it: the row
with key `id` is read into `dest`, which keeps its contents when no row is found.  A
non-zero key already held by `dest` is part of the condition. -/
def First (db : DB) (dest : Account) (id : Nat) : Account :=
  match db.accounts.find? (fun a => a.ID == id && (dest.ID == 0 || a.ID == dest.ID)) with
  | some a => a
  | none => dest

/-- The lines `Task2` prints after a call of `Transfer` in its first scenario. -/
def report1 (err : Option Err) : String :=
  match err with
  | some e => "转账失败: " ++ e.Error
  | none => "转账成功!"

/-- The lines `Task2` prints after a call of `Transfer` in its second scenario. -/
def report2 (err : Option Err) : String :=
  match err with
  | some e => "转账失败，事务已回滚: " ++ e.Error
  | none => "转账成功!"

/-- The two balance lines `Task2` prints. -/
def balanceLines (acc1 acc2 : Account) : List String :=
  ["账户1余额: " ++ toString acc1.Balance, "账户2余额: " ++ toString acc2.Balance]

/-- The function `Task2(db)` with every database call succeeding: the tables it leaves
and what it prints, one entry per printed line (the blank line before each `>>>` line
is left out).  Both tables are emptied first, then the two accounts are created under
their given keys `1` and `2`.  The keys of the audit records are those a database with
fresh counters assigns. -/
def Task2 (_db : DB) : DB × List String :=
  let db : DB := ⟨[], []⟩
  let account1 : Account := ⟨1, NewFromInt 1000⟩
  let account2 : Account := ⟨2, NewFromInt 500⟩
  let db : DB := ⟨db.accounts ++ [account1, account2], db.transactions⟩
  let out := ["--- 初始状态 ---"] ++ balanceLines account1 account2 ++ ["-----------------"]
  let out := out ++ [">>> 尝试从账户1向账户2转账 100 元..."]
  let transferAmount := NewFromInt 100
  let r := Transfer noFaults db 1 2 transferAmount
  let db := r.1
  let out := out ++ [report1 r.2]
  let acc1 := First db ⟨0, 0⟩ 1
  let acc2 := First db ⟨0, 0⟩ 2
  let out := out ++ ["--- 转账后状态 ---"] ++ balanceLines acc1 acc2 ++ ["-----------------"]
  let out := out ++ [">>> 尝试从账户2向账户1转账 600 元 (余额不足)..."]
  let insufficientAmount := NewFromInt 600
  let r := Transfer noFaults db 2 1 insufficientAmount
  let db := r.1
  let out := out ++ [report2 r.2]
  let acc1 := First db acc1 1
  let acc2 := First db acc2 2
  let out := out ++ ["--- 回滚后状态 ---"] ++ balanceLines acc1 acc2 ++ ["-----------------"]
  (db, out)

/-! ## task1.go: `RunTask1` -/

/-- Row of the `students` table. -/
structure Student where
  ID : Nat
  Name : String
  Age : Int
  Grade : String
  deriving DecidableEq, Repr

/-- The call `db.Create(&Student{...})` for a record whose key is zero: the row is
appended under the next auto-increment key. -/
def createStudent (s : Student) (students : List Student) : List Student :=
  students ++ [{ s with ID := nextID (students.map Student.ID) }]

/-- The call `db.Model(&s).Update("Grade", grade)`:
`UPDATE students SET grade = ? WHERE id = ?` with the key of `s`; with a zero key the
update has no condition and is refused (`ErrMissingWhereClause`, which `RunTask1`
ignores). -/
def updateGrade (s : Student) (grade : String) (students : List Student) : List Student :=
  if s.ID = 0 then students
  else students.map (fun r => if r.ID = s.ID then { r with Grade := grade } else r)

/-- The function `RunTask1(db)` on the students table, every database call succeeding:
the table it leaves, or `none` when indexing `students[0]` panics on an empty result. -/
def RunTask1 (table : List Student) : Option (List Student) :=
  let table := createStudent ⟨0, "张三", 20, "三年级"⟩ table
  let students := table.filter (fun r => decide (r.Age > 18))
  match students with
  | [] => none
  | s0 :: _ =>
    let table := updateGrade s0 "四年级" table
    some (table.filter (fun r => !decide (r.Age < 15)))

/-! ## task5.go: the `Comment.AfterDelete` hook -/

/-- The embedded `gorm.Model`; times are ticks of a clock, `DeletedAt` is `none` for a
row that is not soft-deleted. -/
structure Model where
  ID : Nat
  CreatedAt : Nat
  UpdatedAt : Nat
  DeletedAt : Option Nat
  deriving DecidableEq, Repr

/-- Row of the `users` table. -/
structure User extends Model where
  Name : String
  PostCount : Int
  deriving DecidableEq, Repr

/-- Row of the `posts` table. -/
structure Post extends Model where
  Title : String
  Content : String
  UserID : Nat
  CommentStatus : String
  deriving DecidableEq, Repr

/-- Row of the `comments` table. -/
structure Comment extends Model where
  Content : String
  PostID : Nat
  deriving DecidableEq, Repr

/-- The tables of the blog. -/
structure BlogDB where
  users : List User
  posts : List Post
  comments : List Comment
  deriving DecidableEq, Repr

/-- The comments the query `tx.Model(&Comment{}).Where("post_id = ?", id)` selects:
soft-deleted rows are left out by the ORM. -/
def remaining (tx : BlogDB) (id : Nat) : List Comment :=
  tx.comments.filter (fun r => r.PostID == id && r.DeletedAt.isNone)

/-- The hook `(c *Comment) AfterDelete(tx)` at time `now`: the tables after it and the
error it returns.  The error of `Count` is not looked at, and `count` stays `0` when
`Count` fails.  The update is
`UPDATE posts SET comment_status = ?, updated_at = ? WHERE id = ? AND deleted_at IS NULL`.
The progress lines the hook prints are left out. -/
def Comment.AfterDelete (faultCount faultUpdate : Option Err) (now : Nat) (c : Comment)
    (tx : BlogDB) : BlogDB × Option Err :=
  let count : Int :=
    match faultCount with
    | some _ => 0
    | none => ((remaining tx c.PostID).length : Int)
  if count = 0 then
    match faultUpdate with
    | some e => (tx, some e)
    | none =>
      (⟨tx.users,
        tx.posts.map (fun p =>
          if p.ID = c.PostID ∧ p.DeletedAt = none then
            { p with CommentStatus := "无评论", UpdatedAt := now }
          else p),
        tx.comments⟩, none)
  else (tx, none)

/-! ## Lemmas on the primitives -/

/-- A row found by key has that key and is a row of the table. -/
theorem find_spec {l : List Account} {id : Nat} {a : Account}
    (h : l.find? (fun r => r.ID == id) = some a) : a.ID = id ∧ a ∈ l := by
  refine ⟨?_, List.mem_of_find?_eq_some h⟩
  have := List.find?_some h
  simpa using this

/-- An existing account is found by its key. -/
theorem find_of_hasAccount {db : DB} {id : Nat} (h : db.hasAccount id) :
    ∃ a, db.accounts.find? (fun r => r.ID == id) = some a := by
  unfold DB.hasAccount at h
  obtain ⟨a, ha, rfl⟩ := List.mem_map.1 h
  cases hf : db.accounts.find? (fun r => r.ID == a.ID) with
  | some x => exact ⟨x, rfl⟩
  | none =>
    rw [List.find?_eq_none] at hf
    exact absurd (by simp) (hf a ha)

/-- An account with a balance is found by its key, with that balance. -/
theorem find_of_balance {db : DB} {id : Nat} {b : Decimal} (h : db.balance id = some b) :
    ∃ a, db.accounts.find? (fun r => r.ID == id) = some a ∧ a.Balance = b := by
  unfold DB.balance at h
  cases hf : db.accounts.find? (fun r => r.ID == id) with
  | some x => rw [hf] at h; exact ⟨x, rfl, by simpa using h⟩
  | none => rw [hf] at h; simp at h

/-- A missing account is not found. -/
theorem find_none_of_not_hasAccount {db : DB} {id : Nat} (h : ¬ db.hasAccount id) :
    db.accounts.find? (fun r => r.ID == id) = none := by
  rw [List.find?_eq_none]
  intro x hx hp
  exact h (List.mem_map.2 ⟨x, hx, by simpa using hp⟩)

/-- Under unique keys, two rows of the table with the same key are the same row. -/
theorem row_unique {l : List Account} (hn : (l.map Account.ID).Nodup) {a r : Account}
    (ha : a ∈ l) (hr : r ∈ l) (h : r.ID = a.ID) : r = a :=
  List.inj_on_of_nodup_map hn hr ha h

/-- The locking read of an existing row returns it and records the lock. -/
theorem FirstForUpdate_found (tx : Tx) {id : Nat} {a : Account}
    (h : tx.db.accounts.find? (fun r => r.ID == id) = some a) :
    FirstForUpdate none id tx = (⟨tx.db, tx.locked ++ [a.ID]⟩, Except.ok a) := by
  simp [FirstForUpdate, h]

/-- The locking read of a missing row fails with `ErrRecordNotFound` and locks nothing. -/
theorem FirstForUpdate_missing (tx : Tx) {id : Nat}
    (h : tx.db.accounts.find? (fun r => r.ID == id) = none) :
    FirstForUpdate none id tx = (tx, Except.error ErrRecordNotFound) := by
  simp [FirstForUpdate, h]

/-- On a record with a non-zero key that is in the table, `Save` is the update by key. -/
theorem Save_update (tx : Tx) (a : Account) (h0 : a.ID ≠ 0)
    (hex : ∃ r ∈ tx.db.accounts, r.ID = a.ID) :
    Save none a tx =
      (tx.setAccounts (tx.db.accounts.map (fun r => if r.ID = a.ID then a else r)), none) := by
  have hany : tx.db.accounts.any (fun r => r.ID == a.ID) = true := by
    obtain ⟨r, hr, hra⟩ := hex
    exact List.any_eq_true.2 ⟨r, hr, by simpa using hra⟩
  simp [Save, h0, hany]

/-- A failing `Save` changes nothing and reports its failure. -/
theorem Save_fault (e : Err) (a : Account) (tx : Tx) : Save (some e) a tx = (tx, some e) := rfl

/-- A failing `Create` changes nothing and reports its failure. -/
theorem Create_fault (e : Err) (t : Transaction) (tx : Tx) :
    Create (some e) t tx = (tx, some e) := rfl

/-- The call `Save` takes no lock. -/
theorem Save_locked (fault : Option Err) (a : Account) (tx : Tx) :
    (Save fault a tx).1.locked = tx.locked := by
  unfold Save
  cases fault with
  | some e => rfl
  | none =>
    simp only
    split_ifs <;> rfl

/-- The call `Create` takes no lock. -/
theorem Create_locked (fault : Option Err) (t : Transaction) (tx : Tx) :
    (Create fault t tx).1.locked = tx.locked := by
  cases fault <;> rfl

/-- The call `Save` reports an error exactly when it is made to fail. -/
theorem Save_snd (fault : Option Err) (a : Account) (tx : Tx) :
    (Save fault a tx).2 = fault := by
  unfold Save
  cases fault with
  | some e => rfl
  | none =>
    simp only
    split_ifs <;> rfl

/-- The call `Create` reports an error exactly when it is made to fail. -/
theorem Create_snd (fault : Option Err) (t : Transaction) (tx : Tx) :
    (Create fault t tx).2 = fault := by
  cases fault <;> rfl

/-- The error of the body of a transfer whose reads go through and whose checks pass:
it is that of the first write that fails, wrapped, and `nil` when none fails. -/
theorem transferBody_writes {db : DB} {fromID toID : Nat} {amount : Decimal}
    {a t : Account} (f : Faults) (hff : f.firstFrom = none) (hft : f.firstTo = none)
    (ha : db.accounts.find? (fun r => r.ID == fromID) = some a)
    (ht : db.accounts.find? (fun r => r.ID == toID) = some t)
    (hpos : 0 < amount) (hle : amount ≤ a.Balance) :
    (transferBody f fromID toID amount ⟨db, []⟩).2 =
      match f.saveFrom with
      | some e => some (Err.wrap "更新转出账户失败" e)
      | none =>
        match f.saveTo with
        | some e => some (Err.wrap "更新转入账户失败" e)
        | none =>
          match f.create with
          | some e => some (Err.wrap "创建交易记录失败" e)
          | none => none := by
  have h1 : FirstForUpdate none fromID ⟨db, []⟩ = (⟨db, [a.ID]⟩, Except.ok a) := by
    simpa using FirstForUpdate_found ⟨db, []⟩ ha
  have h2 : FirstForUpdate none toID ⟨db, [a.ID]⟩ = (⟨db, [a.ID, t.ID]⟩, Except.ok t) := by
    simpa using FirstForUpdate_found ⟨db, [a.ID]⟩ ht
  unfold transferBody
  rw [if_neg (not_le.2 hpos), hff, hft]
  simp only [h1, h2, if_neg (not_lt.2 hle)]
  have s1 := Save_snd f.saveFrom ⟨a.ID, a.Balance - amount⟩ ⟨db, [a.ID, t.ID]⟩
  rcases hS1 : Save f.saveFrom ⟨a.ID, a.Balance - amount⟩ ⟨db, [a.ID, t.ID]⟩ with ⟨tx1, r1⟩
  rw [hS1] at s1
  simp only at s1
  subst s1
  cases hsf : f.saveFrom with
  | some e => rfl
  | none =>
    simp only
    have s2 := Save_snd f.saveTo ⟨t.ID, t.Balance + amount⟩ tx1
    rcases hS2 : Save f.saveTo ⟨t.ID, t.Balance + amount⟩ tx1 with ⟨tx2, r2⟩
    rw [hS2] at s2
    simp only at s2
    subst s2
    cases hst : f.saveTo with
    | some e => rfl
    | none =>
      simp only
      have s3 := Create_snd f.create ⟨0, fromID, toID, amount⟩ tx2
      rcases hS3 : Create f.create ⟨0, fromID, toID, amount⟩ tx2 with ⟨tx3, r3⟩
      rw [hS3] at s3
      simp only at s3
      subst s3
      cases hc : f.create with
      | some e => rfl
      | none => rfl

/-- The body of a transfer between accounts of non-zero key whose reads go through and
whose checks pass, step by step: what the working copy holds and what is returned,
according to the first write that fails. -/
theorem transferBody_valid {db : DB} {fromID toID : Nat} {amount : Decimal} {a t : Account}
    (f : Faults) (hff : f.firstFrom = none) (hft : f.firstTo = none)
    (hf0 : fromID ≠ 0) (ht0 : toID ≠ 0)
    (ha : db.accounts.find? (fun r => r.ID == fromID) = some a)
    (ht : db.accounts.find? (fun r => r.ID == toID) = some t)
    (hpos : 0 < amount) (hle : amount ≤ a.Balance) :
    transferBody f fromID toID amount ⟨db, []⟩ =
      match f.saveFrom with
      | some e => (⟨db, [fromID, toID]⟩, some (Err.wrap "更新转出账户失败" e))
      | none =>
        match f.saveTo with
        | some e =>
          (⟨⟨debited db.accounts fromID a.Balance amount, db.transactions⟩, [fromID, toID]⟩,
            some (Err.wrap "更新转入账户失败" e))
        | none =>
          match f.create with
          | some e =>
            (⟨⟨settled db.accounts fromID toID a.Balance t.Balance amount, db.transactions⟩,
                [fromID, toID]⟩,
              some (Err.wrap "创建交易记录失败" e))
          | none =>
            (⟨⟨settled db.accounts fromID toID a.Balance t.Balance amount,
                db.transactions ++
                  [⟨nextID (db.transactions.map Transaction.ID), fromID, toID, amount⟩]⟩,
              [fromID, toID]⟩, none) := by
  obtain ⟨haid, hamem⟩ := find_spec ha
  obtain ⟨htid, htmem⟩ := find_spec ht
  have h1 : FirstForUpdate none fromID ⟨db, []⟩ = (⟨db, [a.ID]⟩, Except.ok a) := by
    simpa using FirstForUpdate_found ⟨db, []⟩ ha
  have h2 : FirstForUpdate none toID ⟨db, [a.ID]⟩ = (⟨db, [a.ID, t.ID]⟩, Except.ok t) := by
    simpa using FirstForUpdate_found ⟨db, [a.ID]⟩ ht
  have h3 := Save_update ⟨db, [a.ID, t.ID]⟩ ⟨a.ID, a.Balance - amount⟩
    (by simpa [haid] using hf0) ⟨a, hamem, rfl⟩
  have hdeb : db.accounts.map
        (fun r => if r.ID = fromID then (⟨fromID, a.Balance - amount⟩ : Account) else r)
      = debited db.accounts fromID a.Balance amount := by
    unfold debited
    apply List.map_congr_left
    intro r _
    by_cases hra : r.ID = fromID
    · simp [hra]
    · simp [hra]
  have h4 := Save_update
    (Tx.setAccounts ⟨db, [a.ID, t.ID]⟩
      (db.accounts.map (fun r => if r.ID = a.ID then ⟨a.ID, a.Balance - amount⟩ else r)))
    ⟨t.ID, t.Balance + amount⟩ (by simpa [htid] using ht0)
    ⟨if t.ID = a.ID then ⟨a.ID, a.Balance - amount⟩ else t, by
      simp only [Tx.setAccounts, List.mem_map]
      exact ⟨t, htmem, rfl⟩, by
      by_cases hta : t.ID = a.ID
      · simp [hta]
      · simp [hta]⟩
  have hmap : (debited db.accounts fromID a.Balance amount).map
        (fun r => if r.ID = toID then (⟨toID, t.Balance + amount⟩ : Account) else r)
      = settled db.accounts fromID toID a.Balance t.Balance amount := by
    unfold settled debited
    rw [List.map_map]
    apply List.map_congr_left
    intro r _
    simp only [Function.comp]
    by_cases hrt : r.ID = toID
    · by_cases hra : r.ID = fromID
      · simp [hrt, hra, hrt.symm.trans hra]
      · have htf : ¬ toID = fromID := fun h => hra (hrt.trans h)
        simp [hrt, htf]
    · by_cases hra : r.ID = fromID
      · have hft' : ¬ fromID = toID := fun h => hrt (hra.trans h)
        simp [hra, hft']
      · simp [hrt, hra]
  unfold transferBody
  rw [if_neg (not_le.2 hpos), hff, hft]
  simp only [h1, h2, if_neg (not_lt.2 hle)]
  cases hsf : f.saveFrom with
  | some e => simp only [Save_fault, haid, htid]
  | none =>
    simp only [h3]
    cases hst : f.saveTo with
    | some e => simp only [Save_fault, Tx.setAccounts, haid, htid, hdeb]
    | none =>
      simp only [h4]
      cases hc : f.create with
      | some e => simp only [Create_fault, Tx.setAccounts, haid, htid, hdeb, hmap]
      | none => simp only [Create, Tx.setTransactions, Tx.setAccounts, haid, htid, hdeb, hmap]

/-- Looking a key up after the settlement is looking it up before and settling the row
found. -/
theorem find_settled (rows : List Account) (fromID toID : Nat) (b bt amount : Decimal)
    (id : Nat) :
    (settled rows fromID toID b bt amount).find? (fun r => r.ID == id) =
      (rows.find? (fun r => r.ID == id)).map (fun r =>
        if r.ID = toID then ⟨r.ID, bt + amount⟩
        else if r.ID = fromID then ⟨r.ID, b - amount⟩
        else r) := by
  unfold settled
  rw [List.find?_map]
  congr 2
  funext r
  simp only [Function.comp]
  split_ifs <;> rfl

/-- The body of a transfer returns `nil` only when every one of its database calls went
through and every check passed. -/
theorem transferBody_nil {f : Faults} {db : DB} {fromID toID : Nat} {amount : Decimal}
    (h : (transferBody f fromID toID amount ⟨db, []⟩).2 = none) :
    f.firstFrom = none ∧ f.firstTo = none ∧ f.saveFrom = none ∧ f.saveTo = none
      ∧ f.create = none ∧ 0 < amount
      ∧ ∃ b, db.balance fromID = some b ∧ amount ≤ b ∧ db.hasAccount toID := by
  by_cases hamt : amount ≤ 0
  · simp [transferBody, hamt] at h
  cases hff : f.firstFrom with
  | some e => simp [transferBody, FirstForUpdate, hamt, hff] at h
  | none =>
    cases ha : db.accounts.find? (fun r => r.ID == fromID) with
    | none => simp [transferBody, FirstForUpdate, hamt, hff, ha] at h
    | some a =>
      cases hft : f.firstTo with
      | some e => simp [transferBody, FirstForUpdate, hamt, hff, ha, hft] at h
      | none =>
        cases ht : db.accounts.find? (fun r => r.ID == toID) with
        | none => simp [transferBody, FirstForUpdate, hamt, hff, ha, hft, ht] at h
        | some t =>
          by_cases hbal : a.Balance < amount
          · simp [transferBody, FirstForUpdate, hamt, hff, ha, hft, ht, hbal] at h
          · have hw := transferBody_writes f hff hft ha ht (not_le.1 hamt) (not_lt.1 hbal)
            rw [hw] at h
            cases hsf : f.saveFrom with
            | some e => simp [hsf] at h
            | none =>
              cases hst : f.saveTo with
              | some e => simp [hsf, hst] at h
              | none =>
                cases hc : f.create with
                | some e => simp [hsf, hst, hc] at h
                | none =>
                  refine ⟨rfl, rfl, rfl, rfl, rfl, not_le.1 hamt, a.Balance, ?_,
                    not_lt.1 hbal, ?_⟩
                  · simp [DB.balance, ha]
                  · exact List.mem_map.2 ⟨t, (find_spec ht).2, (find_spec ht).1⟩

/-- An error of the body is what `Transfer` returns, with the tables rolled back. -/
theorem Transfer_of_body_error {f : Faults} {db : DB} {fromID toID : Nat}
    {amount : Decimal} {e : Err} (hb : f.begin = none)
    (h : (transferBody f fromID toID amount ⟨db, []⟩).2 = some e) :
    Transfer f db fromID toID amount = (db, some e) := by
  unfold Transfer DB.Transaction
  rw [hb]
  rcases hr : transferBody f fromID toID amount ⟨db, []⟩ with ⟨tx, _ | e1⟩
  · rw [hr] at h
    simp at h
  · rw [hr] at h
    simp only [Option.some.injEq] at h
    subst h
    rfl

/-! ## The primary-key discipline is kept -/

/-- The running maximum is at least its start value and every element. -/
theorem le_foldl_max (l : List Nat) (m x : Nat) (h : x ≤ m ∨ x ∈ l) :
    x ≤ l.foldl max m := by
  induction l generalizing m with
  | nil =>
    rcases h with h | h
    · simpa using h
    · simp at h
  | cons y ys ih =>
    simp only [List.foldl_cons]
    apply ih
    rcases h with h | h
    · exact Or.inl (le_trans h (le_max_left _ _))
    · rcases List.mem_cons.1 h with h | h
      · exact Or.inl (h ▸ le_max_right _ _)
      · exact Or.inr h

/-- The key assigned to a new row is not in the table and is not zero. -/
theorem nextID_fresh (ids : List Nat) : nextID ids ∉ ids ∧ nextID ids ≠ 0 := by
  refine ⟨fun h => ?_, Nat.succ_ne_zero _⟩
  have := le_foldl_max ids 0 (nextID ids) (Or.inr h)
  unfold nextID at this
  omega

/-- The call `Save` keeps the primary-key discipline, whichever of its branches runs. -/
theorem Save_WF (fault : Option Err) (a : Account) (tx : Tx) (h : tx.db.WF) :
    (Save fault a tx).1.db.WF := by
  unfold Save
  cases fault with
  | some e => exact h
  | none =>
    obtain ⟨hn, h0⟩ := h
    have hfresh := nextID_fresh (tx.db.accounts.map Account.ID)
    simp only
    split_ifs with hz hany
    · refine ⟨?_, ?_⟩
      · simp only [Tx.setAccounts, List.map_append, List.map_cons, List.map_nil]
        rw [List.nodup_append]
        refine ⟨hn, List.nodup_singleton _, ?_⟩
        intro x hx hx2
        rw [List.mem_singleton] at hx2
        exact hfresh.1 (hx2 ▸ hx)
      · simp only [Tx.setAccounts, List.map_append, List.map_cons, List.map_nil,
          List.mem_append, List.mem_singleton, not_or]
        exact ⟨h0, fun e => hfresh.2 e.symm⟩
    · have hids : (tx.db.accounts.map (fun r => if r.ID = a.ID then a else r)).map Account.ID
          = tx.db.accounts.map Account.ID := by
        rw [List.map_map]
        apply List.map_congr_left
        intro r _
        simp only [Function.comp]
        split_ifs with hr
        · exact hr.symm
        · rfl
      exact ⟨by simpa only [Tx.setAccounts, hids] using hn,
        by simpa only [Tx.setAccounts, hids] using h0⟩
    · have hnot : a.ID ∉ tx.db.accounts.map Account.ID := by
        intro hmem
        obtain ⟨r, hr, hra⟩ := List.mem_map.1 hmem
        exact hany (List.any_eq_true.2 ⟨r, hr, by simpa using hra⟩)
      refine ⟨?_, ?_⟩
      · simp only [Tx.setAccounts, List.map_append, List.map_cons, List.map_nil]
        rw [List.nodup_append]
        refine ⟨hn, List.nodup_singleton _, ?_⟩
        intro x hx hx2
        rw [List.mem_singleton] at hx2
        exact hnot (hx2 ▸ hx)
      · simp only [Tx.setAccounts, List.map_append, List.map_cons, List.map_nil,
          List.mem_append, List.mem_singleton, not_or]
        exact ⟨h0, fun e => hz e.symm⟩

/-- The locking read leaves the tables as they are. -/
theorem FirstForUpdate_db (fault : Option Err) (id : Nat) (tx : Tx) :
    (FirstForUpdate fault id tx).1.db = tx.db := by
  unfold FirstForUpdate
  cases fault with
  | some e => rfl
  | none =>
    simp only
    cases tx.db.accounts.find? (fun a => a.ID == id) <;> rfl

/-- The call `Create` leaves the accounts table, and so its discipline, as it is. -/
theorem Create_WF (fault : Option Err) (t : Transaction) (tx : Tx) (h : tx.db.WF) :
    (Create fault t tx).1.db.WF := by
  cases fault with
  | some e => exact h
  | none => exact h

/-- Every run of `Transfer`, failing or not, whatever the database calls do, leaves a
store that keeps the primary-key discipline of the accounts table. -/
theorem Transfer_WF (f : Faults) (db : DB) (fromID toID : Nat) (amount : Decimal)
    (h : db.WF) : (Transfer f db fromID toID amount).1.WF := by
  have hbody : ∀ tx : Tx, tx.db.WF → (transferBody f fromID toID amount tx).1.db.WF := by
    intro tx htx
    unfold transferBody
    split_ifs with hamt
    · exact htx
    · have d1 := FirstForUpdate_db f.firstFrom fromID tx
      rcases hF1 : FirstForUpdate f.firstFrom fromID tx with ⟨tx1, e | a⟩
      · rw [hF1] at d1
        have d1x : tx1.db = tx.db := d1
        dsimp only
        rw [d1x]
        exact htx
      · rw [hF1] at d1
        have d1x : tx1.db = tx.db := d1
        have w1 : tx1.db.WF := by rw [d1x]; exact htx
        dsimp only
        have d2 := FirstForUpdate_db f.firstTo toID tx1
        rcases hF2 : FirstForUpdate f.firstTo toID tx1 with ⟨tx2, e | t⟩
        · rw [hF2] at d2
          have d2x : tx2.db = tx1.db := d2
          dsimp only
          rw [d2x]
          exact w1
        · rw [hF2] at d2
          have d2x : tx2.db = tx1.db := d2
          have w2 : tx2.db.WF := by rw [d2x]; exact w1
          dsimp only
          split_ifs with hbal
          · exact w2
          · have w3 := Save_WF f.saveFrom ⟨a.ID, a.Balance - amount⟩ tx2 w2
            rcases hS1 : Save f.saveFrom ⟨a.ID, a.Balance - amount⟩ tx2 with ⟨tx3, _ | e⟩
            · rw [hS1] at w3
              dsimp only
              have w4 := Save_WF f.saveTo ⟨t.ID, t.Balance + amount⟩ tx3 w3
              rcases hS2 : Save f.saveTo ⟨t.ID, t.Balance + amount⟩ tx3 with ⟨tx4, _ | e⟩
              · rw [hS2] at w4
                dsimp only
                have w5 := Create_WF f.create ⟨0, fromID, toID, amount⟩ tx4 w4
                rcases hS3 : Create f.create ⟨0, fromID, toID, amount⟩ tx4 with ⟨tx5, _ | e⟩
                · rw [hS3] at w5
                  exact w5
                · rw [hS3] at w5
                  exact w5
              · rw [hS2] at w4
                exact w4
            · rw [hS1] at w3
              exact w3
  unfold Transfer DB.Transaction
  cases f.begin with
  | some e => exact h
  | none =>
    have hb := hbody ⟨db, []⟩ h
    rcases hr : transferBody f fromID toID amount ⟨db, []⟩ with ⟨tx, _ | e⟩
    · rw [hr] at hb
      cases f.commit with
      | some e => exact h
      | none => exact hb
    · exact h

/-- A self-transfer that passes the checks, on any store that keeps the primary-key
discipline: it returns `nil`, the account ends with its balance raised by the amount
(the second `Save` writes the credit computed from the balance read before the debit),
every other account is as it was, and an audit record is appended. -/
theorem Transfer_self_credits (db : DB) (k : Nat) (amount b : Decimal)
    (hwf : db.WF) (hk : db.balance k = some b) (hpos : 0 < amount) (hle : amount ≤ b) :
    Transfer noFaults db k k amount =
      (⟨db.accounts.map (fun r => if r.ID = k then ⟨r.ID, r.Balance + amount⟩ else r),
        db.transactions ++ [⟨nextID (db.transactions.map Transaction.ID), k, k, amount⟩]⟩,
        none) := by
  obtain ⟨a, ha, hab⟩ := find_of_balance hk
  obtain ⟨haid, hamem⟩ := find_spec ha
  have hk0 : k ≠ 0 := by
    rintro rfl
    exact hwf.2 (List.mem_map.2 ⟨a, hamem, haid⟩)
  have h1 : FirstForUpdate none k ⟨db, []⟩ = (⟨db, [a.ID]⟩, Except.ok a) := by
    simpa using FirstForUpdate_found ⟨db, []⟩ ha
  have h2 : FirstForUpdate none k ⟨db, [a.ID]⟩ = (⟨db, [a.ID, a.ID]⟩, Except.ok a) := by
    simpa using FirstForUpdate_found ⟨db, [a.ID]⟩ ha
  have h3 := Save_update ⟨db, [a.ID, a.ID]⟩ ⟨a.ID, a.Balance - amount⟩
    (by simpa [haid] using hk0) ⟨a, hamem, rfl⟩
  have h4 := Save_update
    (Tx.setAccounts ⟨db, [a.ID, a.ID]⟩
      (db.accounts.map (fun r => if r.ID = a.ID then ⟨a.ID, a.Balance - amount⟩ else r)))
    ⟨a.ID, a.Balance + amount⟩ (by simpa [haid] using hk0)
    ⟨⟨a.ID, a.Balance - amount⟩, by
      simp only [Tx.setAccounts, List.mem_map]
      exact ⟨a, hamem, by simp⟩, rfl⟩
  have hmap : (db.accounts.map
        (fun r => if r.ID = k then (⟨k, a.Balance - amount⟩ : Account) else r)).map
        (fun r => if r.ID = k then (⟨k, a.Balance + amount⟩ : Account) else r)
      = db.accounts.map (fun r => if r.ID = k then ⟨r.ID, r.Balance + amount⟩ else r) := by
    rw [List.map_map]
    apply List.map_congr_left
    intro r hr
    simp only [Function.comp]
    by_cases hra : r.ID = k
    · have : r = a := row_unique hwf.1 hamem hr (hra.trans haid.symm)
      subst this
      simp [haid]
    · simp [hra]
  unfold Transfer DB.Transaction transferBody
  simp only [noFaults, if_neg (not_le.2 hpos), h1, h2, if_neg (not_lt.2 (hab ▸ hle)), h3, h4]
  simp only [Create, Tx.setTransactions, Tx.setAccounts, haid, hmap]

/-! ## Claims on `Transfer` -/

/-- C1 as stated fails: on the accounts `0 ↦ 1000`, `2 ↦ 500`, both existing and
distinct, `Transfer(0, 2, 100)` with `0 < 100 ≤ 1000` returns `nil`, but `Save` on the
source record, whose key is zero, inserts a new row `3 ↦ 900` instead of updating: the
balance of account `0` is still `1000` and the table has one more account. -/
theorem Transfer_zero_key_inserts :
    DB.balance ⟨[⟨0, 1000⟩, ⟨2, 500⟩], []⟩ 0 = some 1000
      ∧ DB.hasAccount ⟨[⟨0, 1000⟩, ⟨2, 500⟩], []⟩ 2
      ∧ Transfer noFaults ⟨[⟨0, 1000⟩, ⟨2, 500⟩], []⟩ 0 2 100 =
          (⟨[⟨0, 1000⟩, ⟨2, 600⟩, ⟨3, 900⟩], [⟨1, 0, 2, 100⟩]⟩, none)
      ∧ (Transfer noFaults ⟨[⟨0, 1000⟩, ⟨2, 500⟩], []⟩ 0 2 100).1.balance 0 = some 1000 := by
  decide

/-- C1, amended: in a store whose source and destination accounts exist, differ and
have non-zero keys, a transfer of an amount with `0 < amount ≤ source balance` returns
`nil`, and the tables after it are the old ones with the source balance `b` lowered to
`b - amount`, the destination balance `bt` raised to `bt + amount`, every other account
row as it was, and one audit record `(fromID, toID, amount)` appended.  Under unique
keys this is each of the two rows changed by the amount from its own balance. -/
theorem Transfer_success (db : DB) (fromID toID : Nat) (amount b bt : Decimal)
    (hf0 : fromID ≠ 0) (ht0 : toID ≠ 0) (hne : fromID ≠ toID)
    (hfrom : db.balance fromID = some b) (hto : db.balance toID = some bt)
    (hpos : 0 < amount) (hle : amount ≤ b) :
    Transfer noFaults db fromID toID amount =
        (⟨db.accounts.map (fun r =>
            if r.ID = fromID then ⟨r.ID, b - amount⟩
            else if r.ID = toID then ⟨r.ID, bt + amount⟩
            else r),
          db.transactions ++
            [⟨nextID (db.transactions.map Transaction.ID), fromID, toID, amount⟩]⟩, none)
      ∧ (Transfer noFaults db fromID toID amount).1.balance fromID = some (b - amount)
      ∧ (Transfer noFaults db fromID toID amount).1.balance toID = some (bt + amount)
      ∧ (∀ id, id ≠ fromID → id ≠ toID →
          (Transfer noFaults db fromID toID amount).1.balance id = db.balance id)
      ∧ ((db.accounts.map Account.ID).Nodup →
          (Transfer noFaults db fromID toID amount).1.accounts =
            db.accounts.map (fun r =>
              if r.ID = fromID then ⟨r.ID, r.Balance - amount⟩
              else if r.ID = toID then ⟨r.ID, r.Balance + amount⟩
              else r)) := by
  obtain ⟨a, ha, hab⟩ := find_of_balance hfrom
  obtain ⟨t, ht, htb⟩ := find_of_balance hto
  have hbody := transferBody_valid noFaults rfl rfl hf0 ht0 ha ht hpos (hab ▸ hle)
  have hT : Transfer noFaults db fromID toID amount =
      (⟨settled db.accounts fromID toID b bt amount,
        db.transactions ++
          [⟨nextID (db.transactions.map Transaction.ID), fromID, toID, amount⟩]⟩, none) := by
    unfold Transfer DB.Transaction
    rw [hbody, hab, htb]
    rfl
  have hset : settled db.accounts fromID toID b bt amount =
      db.accounts.map (fun r =>
        if r.ID = fromID then ⟨r.ID, b - amount⟩
        else if r.ID = toID then ⟨r.ID, bt + amount⟩
        else r) := by
    unfold settled
    apply List.map_congr_left
    intro r _
    by_cases hra : r.ID = fromID
    · have hrt : ¬ r.ID = toID := fun h => hne (hra.symm.trans h)
      simp [hra, hne]
    · simp [hra]
  refine ⟨by rw [hT, hset], ?_, ?_, ?_, ?_⟩
  · rw [hT]
    simp only [DB.balance, find_settled, ha, Option.map_some']
    simp [(find_spec ha).1, hne]
  · rw [hT]
    simp only [DB.balance, find_settled, ht, Option.map_some']
    simp [(find_spec ht).1]
  · intro id h1 h2
    rw [hT]
    simp only [DB.balance, find_settled]
    cases hx : db.accounts.find? (fun r => r.ID == id) with
    | none => rfl
    | some x => simp [(find_spec hx).1, h1, h2]
  · intro hn
    rw [hT, hset]
    apply List.map_congr_left
    intro r hr
    by_cases hra : r.ID = fromID
    · have : r = a := row_unique hn (find_spec ha).2 hr (hra.trans (find_spec ha).1.symm)
      subst this
      simp [hra, hab]
    · by_cases hrt : r.ID = toID
      · have : r = t := row_unique hn (find_spec ht).2 hr (hrt.trans (find_spec ht).1.symm)
        subst this
        have htf : ¬ toID = fromID := fun h => hne h.symm
        simp [hrt, htf, htb]
      · simp [hra, hrt]

/-- C1 amended, on the demonstration accounts `1 ↦ 1000`, `2 ↦ 500`. -/
theorem Transfer_success_witness :
    Transfer noFaults ⟨[⟨1, 1000⟩, ⟨2, 500⟩], []⟩ 1 2 100 =
      (⟨[⟨1, 900⟩, ⟨2, 600⟩], [⟨1, 1, 2, 100⟩]⟩, none) :=
  (Transfer_success ⟨[⟨1, 1000⟩, ⟨2, 500⟩], []⟩ 1 2 100 1000 500
    (by decide) (by decide) (by decide) (by decide) (by decide) (by decide)
    (by decide)).1.trans (by decide)

/-- C2: when both accounts exist and the amount is positive and larger than the source
balance, `Transfer` returns the error "余额不足" and both tables are as before. -/
theorem Transfer_insufficient (db : DB) (fromID toID : Nat) (amount b : Decimal)
    (hfrom : db.balance fromID = some b) (hto : db.hasAccount toID)
    (hpos : 0 < amount) (hlt : b < amount) :
    Transfer noFaults db fromID toID amount = (db, some (Err.msg "余额不足")) := by
  obtain ⟨a, ha, hab⟩ := find_of_balance hfrom
  obtain ⟨t, ht⟩ := find_of_hasAccount hto
  have h1 : FirstForUpdate none fromID ⟨db, []⟩ = (⟨db, [a.ID]⟩, Except.ok a) := by
    simpa using FirstForUpdate_found ⟨db, []⟩ ha
  have h2 : FirstForUpdate none toID ⟨db, [a.ID]⟩ = (⟨db, [a.ID, t.ID]⟩, Except.ok t) := by
    simpa using FirstForUpdate_found ⟨db, [a.ID]⟩ ht
  have hlt2 : a.Balance < amount := hab ▸ hlt
  unfold Transfer DB.Transaction transferBody
  simp only [noFaults, if_neg (not_le.2 hpos), h1, h2, if_pos hlt2]

/-- C2, on accounts `1 ↦ 900`, `2 ↦ 600` with a transfer of `700` out of account `2`. -/
theorem Transfer_insufficient_witness :
    Transfer noFaults ⟨[⟨1, 900⟩, ⟨2, 600⟩], []⟩ 2 1 700 =
      (⟨[⟨1, 900⟩, ⟨2, 600⟩], []⟩, some (Err.msg "余额不足")) :=
  Transfer_insufficient ⟨[⟨1, 900⟩, ⟨2, 600⟩], []⟩ 2 1 700 600
    (by decide) (by decide) (by decide) (by decide)

/-- C3: for an amount that is not positive, whatever the store and the two account keys
(existing or not) and whatever the later database calls would do, `Transfer` returns the
error "转账金额必须为正数" and both tables are as before. -/
theorem Transfer_invalid_amount (f : Faults) (db : DB) (fromID toID : Nat)
    (amount : Decimal) (hb : f.begin = none) (h : amount ≤ 0) :
    Transfer f db fromID toID amount = (db, some (Err.msg "转账金额必须为正数")) := by
  unfold Transfer DB.Transaction transferBody
  simp only [hb, if_pos h]

/-- C3, on accounts that do not exist and an amount of `0`. -/
theorem Transfer_invalid_amount_witness :
    Transfer noFaults ⟨[⟨1, 50⟩], []⟩ 7 8 0 =
      (⟨[⟨1, 50⟩], []⟩, some (Err.msg "转账金额必须为正数")) :=
  Transfer_invalid_amount noFaults ⟨[⟨1, 50⟩], []⟩ 7 8 0 rfl (by decide)

/-- C4: for a positive amount, when the source account is missing `Transfer` returns
"找不到转出账户" wrapping the not-found error; when the source exists and the destination
is missing it returns "找不到转入账户" wrapping it; in both cases whatever the balances
are, and both tables are as before. -/
theorem Transfer_not_found (db : DB) (fromID toID : Nat) (amount : Decimal)
    (hpos : 0 < amount) :
    (¬ db.hasAccount fromID →
      Transfer noFaults db fromID toID amount =
        (db, some (Err.wrap "找不到转出账户" ErrRecordNotFound)))
    ∧ (db.hasAccount fromID → ¬ db.hasAccount toID →
      Transfer noFaults db fromID toID amount =
        (db, some (Err.wrap "找不到转入账户" ErrRecordNotFound))) := by
  constructor
  · intro hf
    have h1 := FirstForUpdate_missing ⟨db, []⟩ (find_none_of_not_hasAccount hf)
    unfold Transfer DB.Transaction transferBody
    simp only [noFaults, if_neg (not_le.2 hpos), h1]
  · intro hf ht
    obtain ⟨a, ha⟩ := find_of_hasAccount hf
    have h1 : FirstForUpdate none fromID ⟨db, []⟩ = (⟨db, [a.ID]⟩, Except.ok a) := by
      simpa using FirstForUpdate_found ⟨db, []⟩ ha
    have h2 := FirstForUpdate_missing ⟨db, [a.ID]⟩ (find_none_of_not_hasAccount ht)
    unfold Transfer DB.Transaction transferBody
    simp only [noFaults, if_neg (not_le.2 hpos), h1, h2]

/-- C4, on the accounts `1 ↦ 1000`, `2 ↦ 500`: a missing source, and a missing
destination. -/
theorem Transfer_not_found_witness :
    Transfer noFaults ⟨[⟨1, 1000⟩, ⟨2, 500⟩], []⟩ 3 2 100 =
        (⟨[⟨1, 1000⟩, ⟨2, 500⟩], []⟩, some (Err.wrap "找不到转出账户" ErrRecordNotFound))
      ∧ Transfer noFaults ⟨[⟨1, 1000⟩, ⟨2, 500⟩], []⟩ 1 3 100 =
        (⟨[⟨1, 1000⟩, ⟨2, 500⟩], []⟩, some (Err.wrap "找不到转入账户" ErrRecordNotFound)) :=
  ⟨(Transfer_not_found ⟨[⟨1, 1000⟩, ⟨2, 500⟩], []⟩ 3 2 100 (by decide)).1 (by decide),
   (Transfer_not_found ⟨[⟨1, 1000⟩, ⟨2, 500⟩], []⟩ 1 3 100 (by decide)).2
     (by decide) (by decide)⟩

/-- C5: `Transfer` is atomic and swallows no failure.  Whenever it returns an error the
tables are as before the call.  It returns `nil` only when no database call failed and
every check passed.  The error of each failing step is the one returned: that of the
begin as it is; that of a locking read, of the first `Save`, of the second `Save` and of
the `Create` of the audit record wrapped in the message of the step; that of the commit
as it is.  When the second `Save` fails the first has gone through (the working copy of
the transaction holds the debited source), and when the `Create` fails both have (the
working copy holds the debit and the credit); the committed tables are the old ones all
the same. -/
theorem Transfer_atomic (f : Faults) (db : DB) (fromID toID : Nat) (amount : Decimal) :
    (∀ e, (Transfer f db fromID toID amount).2 = some e →
      (Transfer f db fromID toID amount).1 = db)
    ∧ ((Transfer f db fromID toID amount).2 = none →
        f = noFaults ∧ 0 < amount
          ∧ ∃ b, db.balance fromID = some b ∧ amount ≤ b ∧ db.hasAccount toID)
    ∧ (∀ e, f.begin = some e → Transfer f db fromID toID amount = (db, some e))
    ∧ (∀ e, f.begin = none → 0 < amount → f.firstFrom = some e →
        Transfer f db fromID toID amount = (db, some (Err.wrap "找不到转出账户" e)))
    ∧ (∀ e, f.begin = none → 0 < amount → f.firstFrom = none → db.hasAccount fromID →
        f.firstTo = some e →
        Transfer f db fromID toID amount = (db, some (Err.wrap "找不到转入账户" e)))
    ∧ (∀ e b, f.begin = none → f.firstFrom = none → f.firstTo = none → 0 < amount →
        db.balance fromID = some b → amount ≤ b → db.hasAccount toID →
        (f.saveFrom = some e →
          Transfer f db fromID toID amount = (db, some (Err.wrap "更新转出账户失败" e)))
        ∧ (f.saveFrom = none → f.saveTo = some e →
          Transfer f db fromID toID amount = (db, some (Err.wrap "更新转入账户失败" e)))
        ∧ (f.saveFrom = none → f.saveTo = none → f.create = some e →
          Transfer f db fromID toID amount = (db, some (Err.wrap "创建交易记录失败" e)))
        ∧ (f.saveFrom = none → f.saveTo = none → f.create = none → f.commit = some e →
          Transfer f db fromID toID amount = (db, some e)))
    ∧ (∀ e b bt, fromID ≠ 0 → toID ≠ 0 → f.firstFrom = none → f.firstTo = none →
        0 < amount → db.balance fromID = some b → amount ≤ b → db.balance toID = some bt →
        f.saveFrom = none →
        (f.saveTo = some e →
          (transferBody f fromID toID amount ⟨db, []⟩).1.db =
            ⟨debited db.accounts fromID b amount, db.transactions⟩)
        ∧ (f.saveTo = none → f.create = some e →
          (transferBody f fromID toID amount ⟨db, []⟩).1.db =
            ⟨settled db.accounts fromID toID b bt amount, db.transactions⟩)) := by
  refine ⟨?_, ?_, ?_, ?_, ?_, ?_, ?_⟩
  · intro e
    unfold Transfer DB.Transaction
    cases f.begin with
    | some e0 => exact fun _ => rfl
    | none =>
      rcases transferBody f fromID toID amount ⟨db, []⟩ with ⟨tx, _ | e1⟩
      · cases f.commit with
        | some e2 => exact fun _ => rfl
        | none =>
          intro h
          simp at h
      · exact fun _ => rfl
  · intro h
    unfold Transfer DB.Transaction at h
    cases hb : f.begin with
    | some e0 =>
      rw [hb] at h
      simp at h
    | none =>
      rw [hb] at h
      rcases hr : transferBody f fromID toID amount ⟨db, []⟩ with ⟨tx, _ | e1⟩
      · have hnil : (transferBody f fromID toID amount ⟨db, []⟩).2 = none := by rw [hr]
        obtain ⟨h1, h2, h3, h4, h5, h6, h7⟩ := transferBody_nil hnil
        rw [hr] at h
        cases hc : f.commit with
        | some e2 =>
          rw [hc] at h
          simp at h
        | none =>
          refine ⟨?_, h6, h7⟩
          cases f
          simp only [noFaults, Faults.mk.injEq]
          exact ⟨hb, h1, h2, h3, h4, h5, hc⟩
      · rw [hr] at h
        simp at h
  · intro e hb
    unfold Transfer DB.Transaction
    rw [hb]
  · intro e hb hpos hff
    apply Transfer_of_body_error hb
    simp [transferBody, FirstForUpdate, not_le.2 hpos, hff]
  · intro e hb hpos hff hfrom hft
    obtain ⟨a, ha⟩ := find_of_hasAccount hfrom
    apply Transfer_of_body_error hb
    simp [transferBody, FirstForUpdate, not_le.2 hpos, hff, ha, hft]
  · intro e b hb hff hft hpos hfrom hle hto
    obtain ⟨a, ha, hab⟩ := find_of_balance hfrom
    obtain ⟨t, ht⟩ := find_of_hasAccount hto
    have hw := transferBody_writes f hff hft ha ht hpos (hab ▸ hle)
    refine ⟨?_, ?_, ?_, ?_⟩
    · intro hsf
      apply Transfer_of_body_error hb
      rw [hw, hsf]
    · intro hsf hst
      apply Transfer_of_body_error hb
      rw [hw, hsf, hst]
    · intro hsf hst hc
      apply Transfer_of_body_error hb
      rw [hw, hsf, hst, hc]
    · intro hsf hst hc hcm
      rw [hsf, hst, hc] at hw
      unfold Transfer DB.Transaction
      rw [hb]
      rcases hr : transferBody f fromID toID amount ⟨db, []⟩ with ⟨tx, _ | e1⟩
      · simp only [hcm]
      · rw [hr] at hw
        simp at hw
  · intro e b bt hf0 ht0 hff hft hpos hfrom hle hto hsf
    obtain ⟨a, ha, hab⟩ := find_of_balance hfrom
    obtain ⟨t, ht, htb⟩ := find_of_balance hto
    have hbody := transferBody_valid f hff hft hf0 ht0 ha ht hpos (hab ▸ hle)
    rw [hab, htb] at hbody
    refine ⟨?_, ?_⟩
    · intro hst
      rw [hbody, hsf, hst]
    · intro hst hc
      rw [hbody, hsf, hst, hc]

/-- C5, on the accounts `1 ↦ 1000`, `2 ↦ 500` and a transfer of `100` from `1` to `2`:
a failing first `Save`, a failing second `Save` (the working copy holds `1 ↦ 900`) and
a failing `Create` (the working copy holds `1 ↦ 900`, `2 ↦ 600`) each leave the
committed tables as they were and are returned, wrapped. -/
theorem Transfer_atomic_witness :
    Transfer ⟨none, none, none, some (Err.msg "disk full"), none, none, none⟩
        ⟨[⟨1, 1000⟩, ⟨2, 500⟩], []⟩ 1 2 100 =
      (⟨[⟨1, 1000⟩, ⟨2, 500⟩], []⟩,
        some (Err.wrap "更新转出账户失败" (Err.msg "disk full")))
    ∧ Transfer ⟨none, none, none, none, some (Err.msg "disk full"), none, none⟩
        ⟨[⟨1, 1000⟩, ⟨2, 500⟩], []⟩ 1 2 100 =
      (⟨[⟨1, 1000⟩, ⟨2, 500⟩], []⟩,
        some (Err.wrap "更新转入账户失败" (Err.msg "disk full")))
    ∧ (transferBody ⟨none, none, none, none, some (Err.msg "disk full"), none, none⟩
        1 2 100 ⟨⟨[⟨1, 1000⟩, ⟨2, 500⟩], []⟩, []⟩).1.db =
      ⟨[⟨1, 900⟩, ⟨2, 500⟩], []⟩
    ∧ Transfer ⟨none, none, none, none, none, some (Err.msg "disk full"), none⟩
        ⟨[⟨1, 1000⟩, ⟨2, 500⟩], []⟩ 1 2 100 =
      (⟨[⟨1, 1000⟩, ⟨2, 500⟩], []⟩,
        some (Err.wrap "创建交易记录失败" (Err.msg "disk full")))
    ∧ (transferBody ⟨none, none, none, none, none, some (Err.msg "disk full"), none⟩
        1 2 100 ⟨⟨[⟨1, 1000⟩, ⟨2, 500⟩], []⟩, []⟩).1.db =
      ⟨[⟨1, 900⟩, ⟨2, 600⟩], []⟩ :=
  ⟨((Transfer_atomic ⟨none, none, none, some (Err.msg "disk full"), none, none, none⟩
      ⟨[⟨1, 1000⟩, ⟨2, 500⟩], []⟩ 1 2 100).2.2.2.2.2.1 (Err.msg "disk full") 1000
      rfl rfl rfl (by decide) (by decide) (by decide) (by decide)).1 rfl,
   ((Transfer_atomic ⟨none, none, none, none, some (Err.msg "disk full"), none, none⟩
      ⟨[⟨1, 1000⟩, ⟨2, 500⟩], []⟩ 1 2 100).2.2.2.2.2.1 (Err.msg "disk full") 1000
      rfl rfl rfl (by decide) (by decide) (by decide) (by decide)).2.1 rfl rfl,
   (((Transfer_atomic ⟨none, none, none, none, some (Err.msg "disk full"), none, none⟩
      ⟨[⟨1, 1000⟩, ⟨2, 500⟩], []⟩ 1 2 100).2.2.2.2.2.2 (Err.msg "disk full") 1000 500
      (by decide) (by decide) rfl rfl (by decide) (by decide) (by decide) (by decide)
      rfl).1 rfl).trans (by decide),
   ((Transfer_atomic ⟨none, none, none, none, none, some (Err.msg "disk full"), none⟩
      ⟨[⟨1, 1000⟩, ⟨2, 500⟩], []⟩ 1 2 100).2.2.2.2.2.1 (Err.msg "disk full") 1000
      rfl rfl rfl (by decide) (by decide) (by decide) (by decide)).2.2.1 rfl rfl rfl,
   (((Transfer_atomic ⟨none, none, none, none, none, some (Err.msg "disk full"), none⟩
      ⟨[⟨1, 1000⟩, ⟨2, 500⟩], []⟩ 1 2 100).2.2.2.2.2.2 (Err.msg "disk full") 1000 500
      (by decide) (by decide) rfl rfl (by decide) (by decide) (by decide) (by decide)
      rfl).2 rfl rfl).trans (by decide)⟩

/-- C6: the code at the failing input.  On the single account `1 ↦ 1000`, the
self-transfer `Transfer(1, 1, 100)` returns `nil`, leaves the balance at `1100` and
records the transfer: it is neither rejected nor without effect, and the sum of all
balances has grown from `1000` to `1100`. -/
theorem Transfer_self_not_rejected :
    Transfer noFaults ⟨[⟨1, 1000⟩], []⟩ 1 1 100 = (⟨[⟨1, 1100⟩], [⟨1, 1, 1, 100⟩]⟩, none)
      ∧ DB.balance ⟨[⟨1, 1000⟩], []⟩ 1 = some 1000
      ∧ (Transfer noFaults ⟨[⟨1, 1000⟩], []⟩ 1 1 100).1.balance 1 = some 1100
      ∧ DB.total ⟨[⟨1, 1000⟩], []⟩ = 1000
      ∧ (Transfer noFaults ⟨[⟨1, 1000⟩], []⟩ 1 1 100).1.total = 1100 := by
  decide

/-- C7 as stated fails: on the accounts `1 ↦ 1000`, `2 ↦ 500`, both existing and
distinct, `Transfer(1, 2, 100)` locks `1` then `2` while `Transfer(2, 1, 100)` locks
`2` then `1`. -/
theorem lockOrder_depends_on_direction :
    DB.hasAccount ⟨[⟨1, 1000⟩, ⟨2, 500⟩], []⟩ 1
      ∧ DB.hasAccount ⟨[⟨1, 1000⟩, ⟨2, 500⟩], []⟩ 2
      ∧ lockOrder noFaults ⟨[⟨1, 1000⟩, ⟨2, 500⟩], []⟩ 1 2 100 = [1, 2]
      ∧ lockOrder noFaults ⟨[⟨1, 1000⟩, ⟨2, 500⟩], []⟩ 2 1 100 = [2, 1]
      ∧ lockOrder noFaults ⟨[⟨1, 1000⟩, ⟨2, 500⟩], []⟩ 1 2 100 ≠
          lockOrder noFaults ⟨[⟨1, 1000⟩, ⟨2, 500⟩], []⟩ 2 1 100 := by
  decide

/-- C7, amended: `Transfer` takes the row locks in the order of its arguments, the
source account first and the destination account second, whatever the balances and
whatever happens to the later writes; so for two existing accounts `a` and `b` and
positive amounts, `Transfer(a, b, x)` locks `a` then `b` and `Transfer(b, a, y)` locks
`b` then `a`. -/
theorem lockOrder_source_first (f : Faults) (db : DB) (a b : Nat) (x y : Decimal)
    (hb : f.begin = none) (hff : f.firstFrom = none) (hft : f.firstTo = none)
    (ha : db.hasAccount a) (hbx : db.hasAccount b) (hx : 0 < x) (hy : 0 < y) :
    lockOrder f db a b x = [a, b] ∧ lockOrder f db b a y = [b, a] := by
  have key : ∀ (p q : Nat) (z : Decimal), db.hasAccount p → db.hasAccount q → 0 < z →
      lockOrder f db p q z = [p, q] := by
    intro p q z hp hq hz
    obtain ⟨r, hr⟩ := find_of_hasAccount hp
    obtain ⟨s, hs⟩ := find_of_hasAccount hq
    have h1 : FirstForUpdate none p ⟨db, []⟩ = (⟨db, [r.ID]⟩, Except.ok r) := by
      simpa using FirstForUpdate_found ⟨db, []⟩ hr
    have h2 : FirstForUpdate none q ⟨db, [r.ID]⟩ = (⟨db, [r.ID, s.ID]⟩, Except.ok s) := by
      simpa using FirstForUpdate_found ⟨db, [r.ID]⟩ hs
    unfold lockOrder transferBody
    simp only [hb, hff, hft, if_neg (not_le.2 hz), h1, h2]
    have e1 := Save_locked f.saveFrom ⟨r.ID, r.Balance - z⟩ ⟨db, [r.ID, s.ID]⟩
    rcases hS1 : Save f.saveFrom ⟨r.ID, r.Balance - z⟩ ⟨db, [r.ID, s.ID]⟩ with ⟨tx1, _ | e⟩
    · rw [hS1] at e1
      have e2 := Save_locked f.saveTo ⟨s.ID, s.Balance + z⟩ tx1
      rcases hS2 : Save f.saveTo ⟨s.ID, s.Balance + z⟩ tx1 with ⟨tx2, _ | e⟩
      · rw [hS2] at e2
        have e3 := Create_locked f.create ⟨0, p, q, z⟩ tx2
        rcases hS3 : Create f.create ⟨0, p, q, z⟩ tx2 with ⟨tx3, _ | e⟩
        · rw [hS3] at e3
          split_ifs <;> simp_all [(find_spec hr).1, (find_spec hs).1]
        · rw [hS3] at e3
          split_ifs <;> simp_all [(find_spec hr).1, (find_spec hs).1]
      · rw [hS2] at e2
        split_ifs <;> simp_all [(find_spec hr).1, (find_spec hs).1]
    · rw [hS1] at e1
      split_ifs <;> simp_all [(find_spec hr).1, (find_spec hs).1]
  exact ⟨key a b x ha hbx hx, key b a y hbx ha hy⟩

/-- C7 amended, on the accounts `1 ↦ 1000`, `2 ↦ 500`. -/
theorem lockOrder_source_first_witness :
    lockOrder noFaults ⟨[⟨1, 1000⟩, ⟨2, 500⟩], []⟩ 1 2 100 = [1, 2]
      ∧ lockOrder noFaults ⟨[⟨1, 1000⟩, ⟨2, 500⟩], []⟩ 2 1 700 = [2, 1] :=
  lockOrder_source_first noFaults ⟨[⟨1, 1000⟩, ⟨2, 500⟩], []⟩ 1 2 100 700
    rfl rfl rfl (by decide) (by decide) (by decide) (by decide)

/-! ## The `Task2` demonstration -/

/-- C8: the code on the demonstration.  Whatever the tables held before, `Task2` leaves
the balances `1 ↦ 1500` and `2 ↦ 0` and two audit records: after `Transfer(1, 2, 100)`
account `2` holds `600`, which is not less than `600`, so `Transfer(2, 1, 600)` goes
through, nothing is rolled back, and the second scenario prints "转账成功!". -/
theorem Task2_second_transfer_succeeds (db : DB) :
    Task2 db =
      (⟨[⟨1, 1500⟩, ⟨2, 0⟩], [⟨1, 1, 2, 100⟩, ⟨2, 2, 1, 600⟩]⟩,
        ["--- 初始状态 ---", "账户1余额: 1000", "账户2余额: 500", "-----------------",
         ">>> 尝试从账户1向账户2转账 100 元...", "转账成功!",
         "--- 转账后状态 ---", "账户1余额: 900", "账户2余额: 600", "-----------------",
         ">>> 尝试从账户2向账户1转账 600 元 (余额不足)...", "转账成功!",
         "--- 回滚后状态 ---", "账户1余额: 1500", "账户2余额: 0", "-----------------"])
      ∧ Transfer noFaults ⟨[⟨1, 900⟩, ⟨2, 600⟩], [⟨1, 1, 2, 100⟩]⟩ 2 1 600 =
        (⟨[⟨1, 1500⟩, ⟨2, 0⟩], [⟨1, 1, 2, 100⟩, ⟨2, 2, 1, 600⟩]⟩, none) :=
  ⟨rfl, by decide⟩

/-! ## `RunTask1` -/

/-- The index `students[0]` in `RunTask1` never panics: the record just inserted has age
`20` and is in the result of the query. -/
theorem RunTask1_returns (table : List Student) : (RunTask1 table).isSome = true := by
  unfold RunTask1
  simp only [createStudent, List.filter_append]
  have h : List.filter (fun r : Student => decide (r.Age > 18))
      [{ ID := nextID (table.map Student.ID), Name := "张三", Age := 20, Grade := "三年级" }]
      = [{ ID := nextID (table.map Student.ID), Name := "张三", Age := 20,
           Grade := "三年级" }] := by
    simp [List.filter]
  rw [h]
  cases hq : List.filter (fun r : Student => decide (r.Age > 18)) table with
  | nil => rfl
  | cons s rest => rfl

/-- C9: the code at the failing input.  On a table that holds the one student
`(1, "李四", 19, "一年级")`, `RunTask1` returns with the grade of "李四" changed to
"四年级" and the record it inserted for "张三" still in grade "三年级": the update is
applied to the first student older than `18`, not to the students named "张三". -/
theorem RunTask1_updates_first_adult :
    RunTask1 [⟨1, "李四", 19, "一年级"⟩] =
      some [⟨1, "李四", 19, "四年级"⟩, ⟨2, "张三", 20, "三年级"⟩] := by
  decide

/-! ## `Comment.AfterDelete` -/

/-- C10 as stated fails: the comment of key `1` on the post of key `1` has just been
soft-deleted and no other comment is left on that post, which is itself soft-deleted;
the hook returns `nil` and the post keeps its status "有评论". -/
theorem AfterDelete_skips_deleted_post :
    remaining
        ⟨[], [⟨⟨1, 0, 0, some 3⟩, "t", "c", 1, "有评论"⟩], [⟨⟨1, 0, 0, some 5⟩, "x", 1⟩]⟩ 1 = []
      ∧ Comment.AfterDelete none none 7 ⟨⟨1, 0, 0, some 5⟩, "x", 1⟩
          ⟨[], [⟨⟨1, 0, 0, some 3⟩, "t", "c", 1, "有评论"⟩], [⟨⟨1, 0, 0, some 5⟩, "x", 1⟩]⟩ =
        (⟨[], [⟨⟨1, 0, 0, some 3⟩, "t", "c", 1, "有评论"⟩], [⟨⟨1, 0, 0, some 5⟩, "x", 1⟩]⟩,
          none) := by
  decide

/-- C10, amended: with its database calls succeeding, the hook returns `nil`, leaves
the users and the comments as they are, and changes the posts as follows.  When no
comment that is not soft-deleted remains for `c.PostID`, every post with that key that
is not soft-deleted gets status "无评论" (and `now` as its time of update), and every
other post, a soft-deleted post of that key included, is unchanged.  When a comment
remains, every post is unchanged. -/
theorem AfterDelete_spec (now : Nat) (c : Comment) (tx : BlogDB) :
    (Comment.AfterDelete none none now c tx).2 = none
      ∧ (Comment.AfterDelete none none now c tx).1.users = tx.users
      ∧ (Comment.AfterDelete none none now c tx).1.comments = tx.comments
      ∧ (remaining tx c.PostID ≠ [] → (Comment.AfterDelete none none now c tx).1 = tx)
      ∧ List.Forall₂
          (fun p q =>
            (remaining tx c.PostID = [] → p.ID = c.PostID → p.DeletedAt = none →
              q = { p with CommentStatus := "无评论", UpdatedAt := now })
            ∧ (¬ (remaining tx c.PostID = [] ∧ p.ID = c.PostID ∧ p.DeletedAt = none) →
              q = p))
          tx.posts (Comment.AfterDelete none none now c tx).1.posts := by
  by_cases hrem : remaining tx c.PostID = []
  · have hval : Comment.AfterDelete none none now c tx =
        (⟨tx.users,
          tx.posts.map (fun p =>
            if p.ID = c.PostID ∧ p.DeletedAt = none then
              { p with CommentStatus := "无评论", UpdatedAt := now }
            else p),
          tx.comments⟩, none) := by
      unfold Comment.AfterDelete
      simp only [hrem, List.length_nil, Nat.cast_zero, if_true]
    rw [hval]
    refine ⟨rfl, rfl, rfl, fun h => absurd hrem h, ?_⟩
    rw [List.forall₂_map_right_iff, List.forall₂_same]
    intro p _
    constructor
    · intro _ h1 h2
      rw [if_pos ⟨h1, h2⟩]
    · intro h
      rw [if_neg (fun hp => h ⟨hrem, hp.1, hp.2⟩)]
  · have hlen : ((remaining tx c.PostID).length : Int) ≠ 0 := by
      simpa using hrem
    have hval : Comment.AfterDelete none none now c tx = (tx, none) := by
      unfold Comment.AfterDelete
      simp only [if_neg hlen]
    rw [hval]
    refine ⟨rfl, rfl, rfl, fun _ => rfl, ?_⟩
    rw [List.forall₂_same]
    intro p _
    exact ⟨fun h => absurd h hrem, fun _ => rfl⟩

end GormStudy
